import Mathlib

/-!
Verification development for the Modal Selection Engine of the
gh-review-conductor repository (package `pkg/ui`, file `selector_nocov.go`,
plus the shared helpers of `pkg/ui`).

The Go source is shallowly embedded:

* `SelectionModel` carries exactly the engine-relevant fields of the Go
  `SelectionModel[T]` struct.  The third-party `bubbles` list and viewport
  widgets are external collaborators; they are abstracted to the two pieces
  of information the engine actually reads from them
  (`selectedItem` for `m.list.SelectedItem()` and `settingFilter` for
  `m.list.SettingFilter()`), while widget-only calls
  (`SetItems`, `SetItem`, `SetContent`, `GotoTop`, `PageDown`, ...) are
  no-ops on this abstraction.
* `tea.Cmd` values returned by `Update` are reified as the inductive `Cmd`
  (status messages, quit, subprocess executions, delegation to the widget).
* Operating-system effects (temp files, `$EDITOR` / `GH_PRREVIEW_AGENT`
  environment variables) are modelled by the explicit `World` record that
  is threaded through `Update`.
* Go `(value, error)` pairs are modelled as `α × Option String`
  (`none` = nil error).

Functions of this package whose bodies are not in the provided sources but
whose behaviour is pinned by in-repo tests or callers
(`SanitizeEditorContent`, `Colorize`) are reconstructed from those tests and
are marked `Modelled from the spec:` in their doc comments.
-/

namespace Gh

/-! ## String helpers mirroring the Go standard library -/

/-- Is the first list a prefix of the second (kernel-computable)? -/
def isPrefixOfList : List Char → List Char → Bool
  | [], _ => true
  | _ :: _, [] => false
  | a :: as, b :: bs => a = b && isPrefixOfList as bs

/-- Substring search on character lists. -/
def containsAux (pat : List Char) : List Char → Bool
  | [] => isPrefixOfList pat []
  | c :: cs => isPrefixOfList pat (c :: cs) || containsAux pat cs

/-- Model of Go `strings.Contains s pat` (always true for the empty
pattern). -/
def strContains (s pat : String) : Bool :=
  containsAux pat.toList s.toList

/-- Model of Go `strings.HasPrefix`. -/
def startsWithGo (s pre : String) : Bool :=
  isPrefixOfList pre.toList s.toList

/-- Drop the first `n` characters of a string (kernel-computable). -/
def dropGo (s : String) (n : Nat) : String := String.mk (s.toList.drop n)

/-- Model of Go `strings.TrimPrefix s pre`. -/
def trimPrefixGo (s pre : String) : String :=
  if startsWithGo s pre then dropGo s pre.length else s

/-- Split a character list at the first occurrence of `sep`. -/
def splitFirst (sep : Char) : List Char → Option (List Char × List Char)
  | [] => none
  | c :: rest =>
    if c = sep then some ([], rest)
    else
      match splitFirst sep rest with
      | none => none
      | some (a, b) => some (c :: a, b)

/-- Model of Go `strings.SplitN s (String.singleton sep) 2`: split at the
first separator only. -/
def splitN2Go (s : String) (sep : Char) : List String :=
  match splitFirst sep s.toList with
  | none => [s]
  | some (a, b) => [String.mk a, String.mk b]

/-- Split a character list on a separator predicate
(Go `strings.Split` / `strings.FieldsFunc` building block). -/
def splitCharsGo (p : Char → Bool) : List Char → List (List Char)
  | [] => [[]]
  | c :: cs =>
    let r := splitCharsGo p cs
    if p c then [] :: r
    else
      match r with
      | [] => [[c]]
      | l :: ls => (c :: l) :: ls

/-- Model of Go `strings.Split s "\n"`. -/
def splitLinesGo (s : String) : List String :=
  (splitCharsGo (fun c => c = '\n') s.toList).map String.mk

/-- Join lines back with newlines (Go `strings.Join lines "\n"`). -/
def joinLinesGo : List String → String
  | [] => ""
  | l :: rest => rest.foldl (fun acc x => acc ++ "\n" ++ x) l

/-- Model of Go `strings.Fields` (split on whitespace, drop empty parts). -/
def fieldsGo (s : String) : List String :=
  ((splitCharsGo (fun c => c = ' ' || c = '\t' || c = '\n') s.toList).map
    String.mk).filter (fun p => p ≠ "")

/-- Helper for `scanIntGo`: drop leading spaces. -/
def dropSpaces : List Char → List Char
  | [] => []
  | c :: cs => if c = ' ' then dropSpaces cs else c :: cs

/-- Helper for `scanIntGo`: longest digit run at the front. -/
def takeDigits : List Char → List Char
  | [] => []
  | c :: cs => if c.isDigit then c :: takeDigits cs else []

/-- Helper for `scanIntGo`: numeric value of a digit run. -/
def digitsToNat (ds : List Char) : Nat :=
  ds.foldl (fun acc c => acc * 10 + (c.toNat - 48)) 0

/-- Model of the `fmt.Sscanf(s, "%d", &n)` call used by the edit-file key:
parse an optionally signed decimal at the front of `s`, leaving `0` when the
scan fails (the Go code ignores the scan error and keeps the zero value). -/
def scanIntGo (s : String) : Int :=
  match dropSpaces s.toList with
  | '-' :: rest => - (digitsToNat (takeDigits rest) : Int)
  | '+' :: rest => (digitsToNat (takeDigits rest) : Int)
  | cs => (digitsToNat (takeDigits cs) : Int)

/-! ## Colors (`pkg/ui/colors.go`) -/

/-- Modelled from the spec: ANSI reset code used by the color helpers of
`pkg/ui/colors.go`, whose body is not among the provided sources; the color
tests (`TestColorize`) pin that `Colorize` wraps the text between the color
code and the reset code when colors are enabled. -/
def ColorReset : String := "\x1b[0m"

/-- Modelled from the spec: the red color code of `pkg/ui/colors.go`. -/
def ColorRed : String := "\x1b[31m"

/-- Modelled from the spec: the green color code of `pkg/ui/colors.go`. -/
def ColorGreen : String := "\x1b[32m"

/-- Modelled from the spec: `Colorize(color, text)` of `pkg/ui/colors.go`
with colors enabled — `TestColorize` pins that the result starts with the
color code, contains the text and ends with the reset code. -/
def Colorize (color text : String) : String := color ++ text ++ ColorReset

/-! ## Editor content sanitization

`SanitizeEditorContent` is called by `handleEditorFinished` but its body is
not among the provided sources; its behaviour is pinned exhaustively by the
in-repo test `TestSanitizeEditorContent` and by the repository design doc
("The `SanitizeEditorContent()` helper strips trailing `# comment` lines
from editor output"). -/

/-- Whitespace for the purposes of Go `strings.TrimSpace` (ASCII subset
actually occurring in editor buffers). -/
def isSpaceGo (c : Char) : Bool :=
  c = ' ' || c = '\t' || c = '\n' || c = '\r'

/-- Model of Go `strings.TrimSpace` (kernel-computable). -/
def trimGo (s : String) : String :=
  String.mk (((s.toList.dropWhile isSpaceGo).reverse.dropWhile isSpaceGo).reverse)

/-- Does a line begin with the `#` comment marker? -/
def startsWithHash (line : String) : Bool :=
  match line.toList with
  | '#' :: _ => true
  | _ => false

/-- A line is strippable from the tail of an editor buffer when it is blank
or begins with the `#` comment marker. -/
def isStrippableTail (line : String) : Bool :=
  trimGo line = "" || startsWithHash line

/-- Drop the trailing run of blank / `#`-comment lines. -/
def dropTrailingStrippable : List String → List String
  | [] => []
  | l :: ls =>
    match dropTrailingStrippable ls with
    | [] => if isStrippableTail l then [] else [l]
    | ls' => l :: ls'

/-- Modelled from the spec: `SanitizeEditorContent` of `pkg/ui` (body missing
from the provided sources).  Reconstructed from `TestSanitizeEditorContent`
and the design doc: strip the trailing run of blank or `#`-comment lines,
then trim surrounding whitespace. -/
def SanitizeEditorContent (content : String) : String :=
  trimGo (joinLinesGo (dropTrailingStrippable (splitLinesGo content)))

/-- The sanitization the spec sentence literally describes, for comparison:
strip EVERY line beginning with `#`, then trim surrounding whitespace. -/
def sanitizeSpecStripAll (content : String) : String :=
  trimGo (joinLinesGo
    ((splitLinesGo content).filter (fun l => !(startsWithHash l))))

/-! ## Reaction catalog (`selector_nocov.go` lines 18–31) -/

/-- One entry of the `reactionEmojis` catalog. -/
structure ReactionEmoji where
  name : String
  display : String
  deriving DecidableEq, Repr

/-- The fixed reaction catalog `reactionEmojis` of `selector_nocov.go`. -/
def reactionEmojis : List ReactionEmoji :=
  [⟨"+1", "+1"⟩, ⟨"-1", "-1"⟩, ⟨"laugh", "laugh"⟩, ⟨"confused", "confused"⟩,
   ⟨"heart", "heart"⟩, ⟨"hooray", "hooray"⟩, ⟨"rocket", "rocket"⟩,
   ⟨"eyes", "eyes"⟩]

/-! ## Renderer contract and selector options -/

/-- The `ItemRenderer[T]` capability interface consumed by the engine. -/
structure ItemRenderer (T : Type) where
  Title : T → String
  Description : T → String
  FilterValue : T → String
  IsSkippable : T → Bool
  PreviewWithHighlight : T → Int → String
  ThreadCommentCount : T → Nat
  ThreadCommentPreview : T → Nat → String
  WithSelectedComment : T → Nat → T

/-- Go callback type `CustomAction[T] = func(T) (string, error)`. -/
def CustomAction (T : Type) : Type := T → String × Option String

/-- Go callback type `EditorPreparer[T] = func(T) (string, error)`. -/
def EditorPreparer (T : Type) : Type := T → String × Option String

/-- Go callback type
`EditorCompleter[T] = func(T, string) (string, error)`. -/
def EditorCompleter (T : Type) : Type := T → String → String × Option String

/-- The `SelectorOptions[T]` configuration record (`nil` callback =
`none` = feature disabled). -/
structure SelectorOptions (T : Type) where
  Items : List T
  Renderer : ItemRenderer T
  OnSelect : Option (CustomAction T) := none
  OnOpen : Option (CustomAction T) := none
  FilterFunc : Option (T → Bool → Bool) := none
  FilterDefault : Bool := false
  IsItemResolved : Option (T → Bool) := none
  RefreshItems : Option (Unit → List T × Option String) := none
  ResolveAction : Option (CustomAction T) := none
  ResolveKey : String := ""
  ResolveKeyAlt : String := ""
  ResolveCommentPrepare : Option (EditorPreparer T) := none
  ResolveCommentComplete : Option (EditorCompleter T) := none
  ResolveCommentKey : String := ""
  ResolveCommentKeyAlt : String := ""
  QuotePrepare : Option (EditorPreparer T) := none
  QuoteComplete : Option (EditorCompleter T) := none
  QuoteKey : String := ""
  QuoteContextPrepare : Option (EditorPreparer T) := none
  QuoteContextComplete : Option (EditorCompleter T) := none
  QuoteContextKey : String := ""
  AgentAction : Option (CustomAction T) := none
  AgentKey : String := ""
  EditAction : Option (CustomAction T) := none
  EditKey : String := ""
  ReactionAction : Option (T → Int × Option String) := none
  ReactionComplete : Option (Int → String → String × Option String) := none
  ReactionKey : String := ""

/-! ## The engine state (`SelectionModel[T]`) -/

/-- The engine-relevant fields of Go's `SelectionModel[T]`.
`selectedItem` abstracts `m.list.SelectedItem()` and `settingFilter`
abstracts `m.list.SettingFilter()` (widget state the engine only reads). -/
structure SelectionModel (T : Type) where
  opts : SelectorOptions T
  items : List T
  result : Option T
  filterActive : Bool
  refreshing : Bool
  loadingDetail : Bool
  showDetail : Bool
  showHelp : Bool
  confirmationMessage : String
  reactionMode : Bool
  reactionIdx : Nat
  reactionCommentID : Int
  commentSelectMode : Bool
  commentSelectAction : String
  commentSelectIdx : Nat
  commentSelectItem : T
  commentSelectInDetail : Bool
  commentSelectStatus : String
  pendingEditorItem : T
  pendingEditorTmpFile : String
  pendingEditorAction : Nat
  selectedItem : Option T
  settingFilter : Bool
  windowW : Int
  windowH : Int

/-! ## OS world: files and environment -/

/-- The slice of the operating system the engine touches: the file system
(association list path ↦ content), a counter generating fresh
`os.CreateTemp` names, injectable temp-file creation/write failures, and the
`$EDITOR` / `GH_PRREVIEW_AGENT` environment variables (empty = unset). -/
structure World where
  files : List (String × String) := []
  nextTmp : Nat := 0
  createErr : Option String := none
  writeErr : Option String := none
  editorEnv : String := ""
  agentEnv : String := ""

/-- Write (create or overwrite) a file. -/
def fsWrite : List (String × String) → String → String → List (String × String)
  | [], p, c => [(p, c)]
  | (q, d) :: fs, p, c => if q = p then (p, c) :: fs else (q, d) :: fsWrite fs p c

/-- Read a file (`none` = `os.ReadFile` error: no such file). -/
def fsRead : List (String × String) → String → Option String
  | [], _ => none
  | (q, d) :: fs, p => if q = p then some d else fsRead fs p

/-- Remove a file (`os.Remove`; no-op when absent, error ignored by the Go
code). -/
def fsRemove : List (String × String) → String → List (String × String)
  | [], _ => []
  | (q, d) :: fs, p => if q = p then fsRemove fs p else (q, d) :: fsRemove fs p

/-- Fresh temp-file name following the `os.CreateTemp("", "gh-prreview-*.md")`
pattern of `startEditorForAction`. -/
def tmpName (n : Nat) : String := "/tmp/gh-prreview-" ++ toString n ++ ".md"

/-- `$EDITOR`, falling back to `vim` (`editInEditor` / `startEditorForAction`). -/
def editorName (env : String) : String := if env = "" then "vim" else env

/-! ## Messages and commands -/

/-- The messages consumed by `Update` (`tea.WindowSizeMsg`, `loadDetailMsg`,
`refreshFinishedMsg`, `editorFinishedMsg`, `agentFinishedMsg`,
`tea.KeyMsg` via `msg.String()`, anything else). -/
inductive Msg (T : Type) where
  | windowSize (w h : Int)
  | loadDetail
  | refreshFinished (items : Option (List T)) (err : Option String)
  | editorFinished (err : Option String)
  | agentFinished (err : Option String)
  | key (k : String)
  | other
  deriving DecidableEq

/-- The `tea.Cmd` values `Update` returns, reified: `none` (nil command),
`tea.Quit`, `list.NewStatusMessage`, `tea.Batch` (used with two arguments),
the internally generated `loadDetailMsg` emitter, the async refresh,
`tea.ExecProcess` on the editor or the agent, and delegation to the
list/viewport widget. -/
inductive Cmd (T : Type) where
  | none
  | quit
  | statusMsg (s : String)
  | batch (a b : Cmd T)
  | emitLoadDetail
  | runRefresh
  | execEditor (editor : String) (args : List String)
  | execAgent (agent : String) (args : List String)
  | delegate
  deriving DecidableEq

/-- The outcome of `Select`: either the chosen item (`final.result[0]`) or
the explicit `ErrNoSelection` error. -/
inductive SelectResult (T : Type) where
  | selected (t : T)
  | errNoSelection
  deriving DecidableEq

/-- The mutually exclusive UI modes, in the priority order in which
`Update` tests the corresponding flags on a key press. -/
inductive Mode where
  | Normal | Detail | ThreadPick | ReactionPick | Confirmation | HelpOverlay
  deriving DecidableEq, Repr

/-- Mode State of a model, following the dispatch order of `Update`'s
`tea.KeyMsg` branch. -/
def modeOf {T : Type} (m : SelectionModel T) : Mode :=
  if m.showHelp then Mode.HelpOverlay
  else if m.confirmationMessage ≠ "" then Mode.Confirmation
  else if m.reactionMode then Mode.ReactionPick
  else if m.commentSelectMode then Mode.ThreadPick
  else if m.showDetail then Mode.Detail
  else Mode.Normal

/-! ## Thread-pick (comment selection) helpers
(`selector_nocov.go` lines 1044–1081) -/

/-- Status line `"[i/n] preview (key=next, Enter=select, Esc=cancel)"`. -/
def commentSelectLine (idx count : Nat) (preview action : String) : String :=
  "[" ++ toString (idx + 1) ++ "/" ++ toString count ++ "] " ++ preview ++
    " (" ++ action ++ "=next, Enter=select, Esc=cancel)"

/-- `enterCommentSelectMode`: start comment selection for the given action. -/
def enterCommentSelectMode {T : Type} (m : SelectionModel T) (action : String)
    (item : T) : SelectionModel T :=
  let count := m.opts.Renderer.ThreadCommentCount item
  let preview := m.opts.Renderer.ThreadCommentPreview item 0
  { m with
    commentSelectMode := true
    commentSelectAction := action
    commentSelectIdx := 0
    commentSelectItem := item
    commentSelectInDetail := false
    commentSelectStatus := commentSelectLine 0 count preview action }

/-- `cycleCommentSelection`: advance to the next comment in the thread
(wraps modulo the thread length). -/
def cycleCommentSelection {T : Type} (m : SelectionModel T) : SelectionModel T :=
  let count := m.opts.Renderer.ThreadCommentCount m.commentSelectItem
  let idx := (m.commentSelectIdx + 1) % count
  let preview := m.opts.Renderer.ThreadCommentPreview m.commentSelectItem idx
  { m with
    commentSelectIdx := idx
    commentSelectStatus :=
      commentSelectLine idx count preview m.commentSelectAction }

/-- `showCommentSelectStatus`: command displaying the selection status. -/
def showCommentSelectStatus {T : Type} (m : SelectionModel T) : Cmd T :=
  Cmd.statusMsg m.commentSelectStatus

/-- `exitCommentSelectMode`: clear the comment selection state
(the stored item is not cleared by the Go code). -/
def exitCommentSelectMode {T : Type} (m : SelectionModel T) : SelectionModel T :=
  { m with
    commentSelectMode := false
    commentSelectAction := ""
    commentSelectIdx := 0
    commentSelectInDetail := false
    commentSelectStatus := "" }

/-- `updateDetailViewWithHighlight` only rewrites the viewport content and
scroll offset (widget state outside this abstraction). -/
def updateDetailViewWithHighlight {T : Type} (m : SelectionModel T) :
    SelectionModel T := m

/-! ## Reaction helpers (`selector_nocov.go` lines 1208–1221) -/

/-- `enterReactionMode`: start reaction selection for the given comment. -/
def enterReactionMode {T : Type} (m : SelectionModel T) (commentID : Int) :
    SelectionModel T :=
  { m with reactionMode := true, reactionIdx := 0, reactionCommentID := commentID }

/-- Status line `"React: [i/8] emoji (x=next, Enter=add, Esc=cancel)"`. -/
def reactionStatusLine (idx : Nat) : String :=
  let e := reactionEmojis.getD idx ⟨"", ""⟩
  "React: [" ++ toString (idx + 1) ++ "/" ++ toString reactionEmojis.length ++
    "] " ++ e.display ++ " (x=next, Enter=add, Esc=cancel)"

/-- `showReactionStatus`: command displaying the reaction status. -/
def showReactionStatus {T : Type} (m : SelectionModel T) : Cmd T :=
  Cmd.statusMsg (reactionStatusLine m.reactionIdx)

/-! ## Editor and agent subprocesses
(`selector_nocov.go` lines 497–633) -/

/-- `editInEditor`: open `filePath` in `$EDITOR` (fallback `vim`),
positioned at `line` when positive (`<editor> +<line> <path>`). -/
def editInEditor (T : Type) (filePath : String) (line : Int) (w : World) :
    Cmd T :=
  let editor := editorName w.editorEnv
  if line > 0 then Cmd.execEditor editor ["+" ++ toString line, filePath]
  else Cmd.execEditor editor [filePath]

/-- `startEditorForAction`: prepare content via the preparer selected by
`action` (2 = resolve+comment, 3 = quote, 4 = quote+context), create and
fill the temp file, record the pending session, and launch the editor. -/
def startEditorForAction {T : Type} (m : SelectionModel T) (item : T)
    (action : Nat) (w : World) : SelectionModel T × Cmd T × World :=
  let preparer : Option (EditorPreparer T) :=
    match action with
    | 2 => m.opts.ResolveCommentPrepare
    | 3 => m.opts.QuotePrepare
    | 4 => m.opts.QuoteContextPrepare
    | _ => none
  match preparer with
  | none => (m, Cmd.none, w)
  | some prep =>
    match prep item with
    | (_, some e) => (m, Cmd.statusMsg (Colorize ColorRed e), w)
    | (content, none) =>
      match w.createErr with
      | some e =>
        (m, Cmd.statusMsg (Colorize ColorRed ("Failed to create temp file: " ++ e)), w)
      | none =>
        let path := tmpName w.nextTmp
        let w1 := { w with files := fsWrite w.files path "",
                           nextTmp := w.nextTmp + 1 }
        match w1.writeErr with
        | some e =>
          (m, Cmd.statusMsg (Colorize ColorRed ("Failed to write temp file: " ++ e)), w1)
        | none =>
          let w2 := { w1 with files := fsWrite w1.files path content }
          let m1 := { m with pendingEditorItem := item,
                             pendingEditorTmpFile := path,
                             pendingEditorAction := action }
          (m1, Cmd.execEditor (editorName w2.editorEnv) [path], w2)

/-- `handleEditorFinished`: process the editor result.  On an editor process
error the Go code returns the red status immediately (before any file
cleanup); otherwise the temp file is read, removed, and the sanitized
content is handed to the completer matching the pending action. -/
def handleEditorFinished {T : Type} (m : SelectionModel T)
    (err : Option String) (w : World) : SelectionModel T × Cmd T × World :=
  match err with
  | some e => (m, Cmd.statusMsg (Colorize ColorRed ("Editor error: " ++ e)), w)
  | none =>
    if m.pendingEditorTmpFile = "" then (m, Cmd.none, w)
    else
      let path := m.pendingEditorTmpFile
      let readRes := fsRead w.files path
      let w1 := { w with files := fsRemove w.files path }
      let m1 := { m with pendingEditorTmpFile := "" }
      match readRes with
      | none =>
        (m1, Cmd.statusMsg (Colorize ColorRed "Failed to read temp file: no such file"), w1)
      | some content =>
        let sanitized := SanitizeEditorContent content
        if sanitized = "" then
          (m1, Cmd.statusMsg "Cancelled (empty content)", w1)
        else
          let completer : Option (EditorCompleter T) :=
            match m1.pendingEditorAction with
            | 2 => m1.opts.ResolveCommentComplete
            | 3 => m1.opts.QuoteComplete
            | 4 => m1.opts.QuoteContextComplete
            | _ => none
          match completer with
          | none => (m1, Cmd.none, w1)
          | some comp =>
            match comp m1.pendingEditorItem sanitized with
            | (_, some e) => (m1, Cmd.statusMsg (Colorize ColorRed e), w1)
            | (result, none) =>
              if strContains result "https://" then
                ({ m1 with confirmationMessage :=
                     result ++ "\n\nPress any key to continue..." },
                 Cmd.none, w1)
              else if result ≠ "" then (m1, Cmd.statusMsg result, w1)
              else (m1, Cmd.none, w1)

/-- `launchAgent`: start `$GH_PRREVIEW_AGENT` (fallback `claude`) with the
prompt as final argument. -/
def launchAgent (T : Type) (prompt : String) (w : World) : Cmd T :=
  let agent := if w.agentEnv = "" then "claude" else w.agentEnv
  let parts := fieldsGo agent
  Cmd.execAgent (parts.headD "") (parts.tail ++ [prompt])

/-! ## Shared key handlers (`selector_nocov.go` lines 1083–1298) -/

/-- The `o` key (identical in list and detail view): invoke `OnOpen`. -/
def openKeyStep {T : Type} (m : SelectionModel T) (w : World) :
    SelectionModel T × Cmd T × World :=
  match m.opts.OnOpen with
  | none => (m, Cmd.none, w)
  | some act =>
    match m.selectedItem with
    | none => (m, Cmd.none, w)
    | some it =>
      match act it with
      | (_, some e) => (m, Cmd.statusMsg (Colorize ColorRed e), w)
      | (s, none) => if s ≠ "" then (m, Cmd.statusMsg s, w) else (m, Cmd.none, w)

/-- The `e` key: invoke `EditAction`; an `EDIT_FILE:path:line` result opens
the editor at that position, any other non-empty result becomes a status. -/
def editKeyStep {T : Type} (m : SelectionModel T) (w : World) :
    SelectionModel T × Cmd T × World :=
  match m.opts.EditAction with
  | none => (m, Cmd.none, w)
  | some act =>
    match m.selectedItem with
    | none => (m, Cmd.none, w)
    | some it =>
      match act it with
      | (_, some e) => (m, Cmd.statusMsg (Colorize ColorRed e), w)
      | (result, none) =>
        if startsWithGo result "EDIT_FILE:" then
          match splitN2Go (trimPrefixGo result "EDIT_FILE:") ':' with
          | [p, l] => (m, editInEditor T p (scanIntGo l) w, w)
          | _ =>
            if result ≠ "" then (m, Cmd.statusMsg result, w) else (m, Cmd.none, w)
        else
          if result ≠ "" then (m, Cmd.statusMsg result, w) else (m, Cmd.none, w)

/-- `handleQuoteKey` (`Q`): thread-pick when the thread has more than one
comment, otherwise start the quote editor session directly. -/
def handleQuoteKey {T : Type} (m : SelectionModel T) (inDetailView : Bool)
    (w : World) : SelectionModel T × Cmd T × World :=
  match m.opts.QuotePrepare with
  | none => (m, Cmd.none, w)
  | some _ =>
    match m.selectedItem with
    | none => (m, Cmd.none, w)
    | some it =>
      let count := m.opts.Renderer.ThreadCommentCount it
      if count > 1 then
        let m1 := enterCommentSelectMode m "Q" it
        let m2 := if inDetailView then
            updateDetailViewWithHighlight { m1 with commentSelectInDetail := true }
          else m1
        (m2, showCommentSelectStatus m2, w)
      else
        let m1 := if inDetailView then { m with showDetail := false } else m
        startEditorForAction m1 it 3 w

/-- `handleQuoteContextKey` (`C`): like `handleQuoteKey` with the
quote-with-context preparer (editor action 4). -/
def handleQuoteContextKey {T : Type} (m : SelectionModel T)
    (inDetailView : Bool) (w : World) : SelectionModel T × Cmd T × World :=
  match m.opts.QuoteContextPrepare with
  | none => (m, Cmd.none, w)
  | some _ =>
    match m.selectedItem with
    | none => (m, Cmd.none, w)
    | some it =>
      let count := m.opts.Renderer.ThreadCommentCount it
      if count > 1 then
        let m1 := enterCommentSelectMode m "C" it
        let m2 := if inDetailView then
            updateDetailViewWithHighlight { m1 with commentSelectInDetail := true }
          else m1
        (m2, showCommentSelectStatus m2, w)
      else
        let m1 := if inDetailView then { m with showDetail := false } else m
        startEditorForAction m1 it 4 w

/-- `handleAgentKey` (`a`): thread-pick when the thread has more than one
comment, otherwise invoke `AgentAction` directly (a `LAUNCH_AGENT:` result
starts the agent subprocess). -/
def handleAgentKey {T : Type} (m : SelectionModel T) (inDetailView : Bool)
    (w : World) : SelectionModel T × Cmd T × World :=
  match m.opts.AgentAction with
  | none => (m, Cmd.none, w)
  | some act =>
    match m.selectedItem with
    | none => (m, Cmd.none, w)
    | some it =>
      let count := m.opts.Renderer.ThreadCommentCount it
      if count > 1 then
        let m1 := enterCommentSelectMode m "a" it
        let m2 := if inDetailView then
            updateDetailViewWithHighlight { m1 with commentSelectInDetail := true }
          else m1
        (m2, showCommentSelectStatus m2, w)
      else
        match act it with
        | (_, some e) => (m, Cmd.statusMsg (Colorize ColorRed e), w)
        | (result, none) =>
          if startsWithGo result "LAUNCH_AGENT:" then
            let prompt := trimPrefixGo result "LAUNCH_AGENT:"
            let m1 := if inDetailView then { m with showDetail := false } else m
            (m1, launchAgent T prompt w, w)
          else if result ≠ "" then (m, Cmd.statusMsg result, w)
          else (m, Cmd.none, w)

/-- `handleReactionKey` (`x`): thread-pick when the thread has more than one
comment (unless already picking in the detail view), otherwise invoke
`ReactionAction` and enter reaction mode. -/
def handleReactionKey {T : Type} (m : SelectionModel T) (inDetailView : Bool)
    (w : World) : SelectionModel T × Cmd T × World :=
  match m.opts.ReactionAction with
  | none => (m, Cmd.none, w)
  | some act =>
    match m.selectedItem with
    | none => (m, Cmd.none, w)
    | some it =>
      let count := m.opts.Renderer.ThreadCommentCount it
      if decide (count > 1) &&
          (!inDetailView || (inDetailView && !m.commentSelectMode)) then
        let m1 := enterCommentSelectMode m "x" it
        let m2 := if inDetailView then
            updateDetailViewWithHighlight { m1 with commentSelectInDetail := true }
          else m1
        (m2, showCommentSelectStatus m2, w)
      else
        match act it with
        | (_, some e) => (m, Cmd.statusMsg (Colorize ColorRed e), w)
        | (commentID, none) =>
          let m1 := enterReactionMode m commentID
          (m1, showReactionStatus m1, w)

/-- `executeCommentAction`: Enter in thread-pick mode — stamp the chosen
sub-index onto the item via `WithSelectedComment`, leave thread-pick mode,
and run the originating action on the stamped item. -/
def executeCommentAction {T : Type} (m : SelectionModel T) (w : World) :
    SelectionModel T × Cmd T × World :=
  let itemWithSelection :=
    m.opts.Renderer.WithSelectedComment m.commentSelectItem m.commentSelectIdx
  let m0 := { m with commentSelectItem := itemWithSelection }
  let action := m0.commentSelectAction
  let wasInDetail := m0.commentSelectInDetail
  let m1 := exitCommentSelectMode m0
  if action = "Q" then
    let m2 := if wasInDetail then { m1 with showDetail := false } else m1
    startEditorForAction m2 itemWithSelection 3 w
  else if action = "C" then
    let m2 := if wasInDetail then { m1 with showDetail := false } else m1
    startEditorForAction m2 itemWithSelection 4 w
  else if action = "a" then
    match m1.opts.AgentAction with
    | none => (m1, Cmd.none, w)
    | some act =>
      match act itemWithSelection with
      | (_, some e) => (m1, Cmd.statusMsg (Colorize ColorRed e), w)
      | (result, none) =>
        if startsWithGo result "LAUNCH_AGENT:" then
          let prompt := trimPrefixGo result "LAUNCH_AGENT:"
          let m2 := if wasInDetail then { m1 with showDetail := false } else m1
          (m2, launchAgent T prompt w, w)
        else if result ≠ "" then (m1, Cmd.statusMsg result, w)
        else (m1, Cmd.none, w)
  else if action = "x" then
    match m1.opts.ReactionAction with
    | none => (m1, Cmd.none, w)
    | some act =>
      match act itemWithSelection with
      | (_, some e) => (m1, Cmd.statusMsg (Colorize ColorRed e), w)
      | (commentID, none) =>
        let m2 := enterReactionMode m1 commentID
        (m2, showReactionStatus m2, w)
  else (m1, Cmd.none, w)

/-! ## Key dispatch (`selector_nocov.go` lines 163–494) -/

/-- Detail-view key handling (lines 257–356).  Unhandled keys are delegated
to the viewport widget. -/
def detailKey {T : Type} (m : SelectionModel T) (k : String) (w : World) :
    SelectionModel T × Cmd T × World :=
  match k with
  | "esc" | "backspace" | "left" | "h" | "q" =>
    ({ m with showDetail := false }, Cmd.none, w)
  | "ctrl+f" => (m, Cmd.none, w)
  | "ctrl+b" => (m, Cmd.none, w)
  | "r" | "u" =>
    match m.opts.ResolveAction with
    | none => (m, Cmd.none, w)
    | some act =>
      match m.selectedItem with
      | none => (m, Cmd.none, w)
      | some it =>
        match act it with
        | (_, some e) =>
          ({ m with showDetail := false }, Cmd.statusMsg (Colorize ColorRed e), w)
        | (s, none) =>
          if s ≠ "" then ({ m with showDetail := false }, Cmd.statusMsg s, w)
          else ({ m with showDetail := false }, Cmd.none, w)
  | "R" | "U" =>
    match m.opts.ResolveCommentPrepare with
    | none => (m, Cmd.none, w)
    | some _ =>
      match m.selectedItem with
      | none => (m, Cmd.none, w)
      | some it => startEditorForAction { m with showDetail := false } it 2 w
  | "Q" => handleQuoteKey m true w
  | "C" => handleQuoteContextKey m true w
  | "a" => handleAgentKey m true w
  | "e" => editKeyStep m w
  | "x" => handleReactionKey m true w
  | "o" => openKeyStep m w
  | _ => (m, Cmd.delegate, w)

/-- Main list-view key handling (lines 359–494).  Unhandled keys (and the
navigation fall-through at the end of `Update`) are delegated to the list
widget. -/
def listKey {T : Type} (m : SelectionModel T) (k : String) (w : World) :
    SelectionModel T × Cmd T × World :=
  match k with
  | "ctrl+c" => (m, Cmd.quit, w)
  | "?" => ({ m with showHelp := true }, Cmd.none, w)
  | "q" => ({ m with result := none }, Cmd.quit, w)
  | "enter" | "right" | "l" =>
    match m.selectedItem with
    | none => (m, Cmd.delegate, w)
    | some it =>
      let detail := fun (mm : SelectionModel T) =>
        ({ mm with showDetail := true, loadingDetail := true },
         Cmd.emitLoadDetail (T := T), w)
      match m.opts.OnSelect with
      | none => detail m
      | some act =>
        match act it with
        | (_, some e) => (m, Cmd.statusMsg (Colorize ColorRed e), w)
        | (s, none) => if s ≠ "" then (m, Cmd.statusMsg s, w) else detail m
  | "o" => openKeyStep m w
  | "h" | "tab" =>
    match m.opts.FilterFunc with
    | none => (m, Cmd.none, w)
    | some _ =>
      let m1 := { m with filterActive := !m.filterActive }
      if m1.filterActive then (m1, Cmd.statusMsg "Hiding resolved", w)
      else (m1, Cmd.statusMsg "Showing all", w)
  | "i" =>
    if m.opts.RefreshItems.isSome && !m.refreshing then
      ({ m with refreshing := true }, Cmd.runRefresh, w)
    else (m, Cmd.none, w)
  | "r" | "u" =>
    match m.opts.ResolveAction with
    | none => (m, Cmd.none, w)
    | some act =>
      match m.selectedItem with
      | none => (m, Cmd.none, w)
      | some it =>
        match act it with
        | (_, some e) => (m, Cmd.statusMsg (Colorize ColorRed e), w)
        | (s, none) =>
          if s ≠ "" then (m, Cmd.statusMsg s, w) else (m, Cmd.none, w)
  | "R" | "U" =>
    match m.opts.ResolveCommentPrepare with
    | none => (m, Cmd.none, w)
    | some _ =>
      match m.selectedItem with
      | none => (m, Cmd.none, w)
      | some it => startEditorForAction m it 2 w
  | "Q" => handleQuoteKey m false w
  | "C" => handleQuoteContextKey m false w
  | "a" => handleAgentKey m false w
  | "e" => editKeyStep m w
  | "x" => handleReactionKey m false w
  | _ => (m, Cmd.delegate, w)

/-- Key dispatch after the modal overlays: the filter input takes all keys,
then the detail view, then the main list (lines 250–494). -/
def dispatchKey {T : Type} (m : SelectionModel T) (k : String) (w : World) :
    SelectionModel T × Cmd T × World :=
  if m.settingFilter then (m, Cmd.delegate, w)
  else if m.showDetail then detailKey m k w
  else listKey m k w

/-- Thread-pick key handling (lines 208–247).  Enter confirms, Esc cancels
with a status, the originating action key cycles, and ANY other key —
including a different action key — exits thread-pick mode and then falls
through to the normal dispatch in the same turn (the Go `case` bodies end
without `return`). -/
def commentSelectKey {T : Type} (m : SelectionModel T) (k : String)
    (w : World) : SelectionModel T × Cmd T × World :=
  if k = "enter" then executeCommentAction m w
  else if k = "esc" then
    (exitCommentSelectMode m, Cmd.statusMsg "Selection cancelled", w)
  else if (k = "Q" ∨ k = "C" ∨ k = "a" ∨ k = "x") ∧
      k = m.commentSelectAction then
    let m1 := cycleCommentSelection m
    let m2 := if m1.commentSelectInDetail then updateDetailViewWithHighlight m1
      else m1
    (m2, showCommentSelectStatus m2, w)
  else dispatchKey (exitCommentSelectMode m) k w

/-- Reaction-mode key handling (lines 177–205): Enter adds the reaction via
`ReactionComplete`, `x` cycles, Esc or any other key cancels. -/
def reactionModeKey {T : Type} (m : SelectionModel T) (k : String)
    (w : World) : SelectionModel T × Cmd T × World :=
  if k = "enter" then
    let emoji := (reactionEmojis.getD m.reactionIdx ⟨"", ""⟩).name
    let m1 := { m with reactionMode := false }
    match m1.opts.ReactionComplete with
    | none => (m1, Cmd.none, w)
    | some comp =>
      match comp m1.reactionCommentID emoji with
      | (_, some e) => (m1, Cmd.statusMsg (Colorize ColorRed e), w)
      | (s, none) =>
        ({ m1 with confirmationMessage :=
             s ++ "\n\nPress any key to continue..." }, Cmd.none, w)
  else if k = "esc" then
    ({ m with reactionMode := false }, Cmd.statusMsg "Reaction cancelled", w)
  else if k = "x" then
    let m1 := { m with reactionIdx := (m.reactionIdx + 1) % reactionEmojis.length }
    (m1, showReactionStatus m1, w)
  else
    ({ m with reactionMode := false }, Cmd.statusMsg "Reaction cancelled", w)

/-- The `tea.KeyMsg` branch of `Update` (lines 163–247): help overlay and
confirmation dialog swallow the key, then reaction mode, then thread-pick
mode, then the normal dispatch. -/
def keyMsgStep {T : Type} (m : SelectionModel T) (k : String) (w : World) :
    SelectionModel T × Cmd T × World :=
  if m.showHelp then ({ m with showHelp := false }, Cmd.none, w)
  else if m.confirmationMessage ≠ "" then
    ({ m with confirmationMessage := "" }, Cmd.none, w)
  else if m.reactionMode then reactionModeKey m k w
  else if m.commentSelectMode then commentSelectKey m k w
  else dispatchKey m k w

/-- `SelectionModel.Update` (lines 112–495). -/
def Update {T : Type} (m : SelectionModel T) (msg : Msg T) (w : World) :
    SelectionModel T × Cmd T × World :=
  match msg with
  | Msg.windowSize wd ht => ({ m with windowW := wd, windowH := ht }, Cmd.none, w)
  | Msg.loadDetail => ({ m with loadingDetail := false }, Cmd.none, w)
  | Msg.refreshFinished items err =>
    let m1 := { m with refreshing := false }
    match err with
    | some e =>
      (m1, Cmd.statusMsg (Colorize ColorRed ("Refresh failed: " ++ e)), w)
    | none =>
      match items with
      | some its =>
        ({ m1 with items := its },
         Cmd.batch Cmd.delegate
           (Cmd.statusMsg (Colorize ColorGreen
             ("Refreshed: " ++ toString its.length ++ " items"))), w)
      | none => (m1, Cmd.none, w)
  | Msg.editorFinished err => handleEditorFinished m err w
  | Msg.agentFinished err =>
    match err with
    | some e => (m, Cmd.statusMsg (Colorize ColorRed ("Agent error: " ++ e)), w)
    | none => (m, Cmd.statusMsg (Colorize ColorGreen "Agent completed"), w)
  | Msg.key k => keyMsgStep m k w
  | Msg.other => (m, Cmd.delegate, w)

/-! ## The run loop and `Select` (lines 60–104) -/

/-- Does a command (transitively, through `tea.Batch`) quit the program? -/
def cmdHasQuit {T : Type} : Cmd T → Bool
  | Cmd.quit => true
  | Cmd.batch a b => cmdHasQuit a || cmdHasQuit b
  | _ => false

/-- The bubbletea event loop over an explicit message trace: apply `Update`
to each message in turn, stopping when a quit command is produced. -/
def processEvents {T : Type} (m : SelectionModel T) (w : World) :
    List (Msg T) → SelectionModel T
  | [] => m
  | msg :: rest =>
    let r := Update m msg w
    if cmdHasQuit r.2.1 then r.1 else processEvents r.1 r.2.2 rest

/-- The model `Select` constructs before running the program
(`result` starts `nil`; the widget initially selects the first item). -/
def initialModel {T : Type} [Inhabited T] (opts : SelectorOptions T) :
    SelectionModel T :=
  { opts := opts
    items := opts.Items
    result := none
    filterActive := opts.FilterDefault
    refreshing := false
    loadingDetail := false
    showDetail := false
    showHelp := false
    confirmationMessage := ""
    reactionMode := false
    reactionIdx := 0
    reactionCommentID := 0
    commentSelectMode := false
    commentSelectAction := ""
    commentSelectIdx := 0
    commentSelectItem := default
    commentSelectInDetail := false
    commentSelectStatus := ""
    pendingEditorItem := default
    pendingEditorTmpFile := ""
    pendingEditorAction := 0
    selectedItem := opts.Items.head?
    settingFilter := false
    windowW := 0
    windowH := 0 }

/-- `Select` over an explicit input-event trace: run the loop and map the
final `result` slice to the chosen item or `ErrNoSelection`
(`len(final.result) == 0` ↦ `errNoSelection`, else `final.result[0]`). -/
def SelectRun {T : Type} [Inhabited T] (opts : SelectorOptions T) (w : World)
    (msgs : List (Msg T)) : SelectResult T :=
  match (processEvents (initialModel opts) w msgs).result with
  | some t => SelectResult.selected t
  | none => SelectResult.errNoSelection

/-! ## Concrete fixtures for witnesses and scenario claims -/

/-- A minimal concrete item type: an id plus the stamped sub-selection
index (what `WithSelectedComment` records on a `BrowseItem`). -/
structure BItem where
  id : Nat
  selIdx : Nat
  deriving DecidableEq, Repr, Inhabited

/-- A concrete renderer whose items all report a thread of `count`
comments; `WithSelectedComment` stamps the chosen index. -/
def testRenderer (count : Nat) : ItemRenderer BItem :=
  { Title := fun it => "item" ++ toString it.id
    Description := fun _ => ""
    FilterValue := fun it => toString it.id
    IsSkippable := fun _ => false
    PreviewWithHighlight := fun it i => "preview" ++ toString it.id ++ ":" ++ toString i
    ThreadCommentCount := fun _ => count
    ThreadCommentPreview := fun _ i => "c" ++ toString i
    WithSelectedComment := fun it i => { it with selIdx := i } }

/-- Options for the end-to-end quote scenario: one item whose thread has 3
comments and a quote editor action. -/
def c9opts : SelectorOptions BItem :=
  { Items := [⟨1, 0⟩]
    Renderer := testRenderer 3
    QuotePrepare := some (fun it => ("quote:" ++ toString it.selIdx, none))
    QuoteComplete := some (fun _ s => ("done:" ++ s, none))
    QuoteKey := "Q quote" }

/-- Quote scenario states: press `Q` four times, then Enter. -/
def c9s1 := Update (initialModel c9opts) (Msg.key "Q") ({} : World)

/-- Quote scenario after the second `Q`. -/
def c9s2 := Update c9s1.1 (Msg.key "Q") c9s1.2.2

/-- Quote scenario after the third `Q`. -/
def c9s3 := Update c9s2.1 (Msg.key "Q") c9s2.2.2

/-- Quote scenario after the fourth `Q` (wrapped back to the root). -/
def c9s4 := Update c9s3.1 (Msg.key "Q") c9s3.2.2

/-- Quote scenario after Enter: the editor session opens. -/
def c9s5 := Update c9s4.1 (Msg.key "enter") c9s4.2.2

/-- Options with a ResolveAction that always fails. -/
def c2opts : SelectorOptions BItem :=
  { Items := [⟨1, 0⟩]
    Renderer := testRenderer 0
    ResolveAction := some (fun _ => ("", some "resolve failed")) }

/-- A detail-view state over `c2opts`. -/
def c2m0 : SelectionModel BItem := { initialModel c2opts with showDetail := true }

/-- Options for the temp-file lifecycle scenario: a quote preparer and
completer. -/
def c3opts : SelectorOptions BItem :=
  { Items := [⟨1, 0⟩]
    Renderer := testRenderer 0
    QuotePrepare := some (fun _ => ("hello", none))
    QuoteComplete := some (fun _ s => ("done " ++ s, none)) }

/-- Temp-file scenario: press `Q` on a 0-comment item — the editor session
starts and the temp file is created. -/
def c3s1 := Update (initialModel c3opts) (Msg.key "Q") ({} : World)

/-- Options with both a quote action and an agent action configured, over a
3-comment thread. -/
def c4opts : SelectorOptions BItem :=
  { Items := [⟨1, 0⟩]
    Renderer := testRenderer 3
    QuotePrepare := some (fun it => ("quote:" ++ toString it.selIdx, none))
    AgentAction := some (fun _ => ("LAUNCH_AGENT:fix it", none)) }

/-- A state with a `Q` thread-pick in progress over `c4opts`. -/
def c4m0 : SelectionModel BItem :=
  (Update (initialModel c4opts) (Msg.key "Q") ({} : World)).1

/-- A reaction-mode state sitting on the last catalog entry. -/
def c8m0 : SelectionModel BItem :=
  { initialModel c2opts with reactionMode := true, reactionIdx := 7 }

/-- A state with a pending editor session whose temp file holds only
comment lines. -/
def c7m0 : SelectionModel BItem :=
  { initialModel c3opts with pendingEditorTmpFile := "/tmp/pending.md" }

/-- The world holding `c7m0`'s temp file (only comment lines). -/
def c7w0 : World := { files := [("/tmp/pending.md", "# a\n# b\n")] }

/-- A state with a pending quote editor session (action 3). -/
def c10m0 : SelectionModel BItem :=
  { initialModel c3opts with
      pendingEditorTmpFile := "/tmp/pending.md", pendingEditorAction := 3 }

/-- The world holding `c10m0`'s temp file with real content. -/
def c10w0 : World := { files := [("/tmp/pending.md", "hi\n")] }

/-! ## Helper lemmas: no step of `Update` ever assigns a selection

The Go `Update` method only ever writes `m.result = nil` (in the `q`
branch); no branch stores the selected item.  The lemmas below establish
this per helper function and compose them into the run-loop invariant. -/

theorem startEditorForAction_result {T : Type} (m : SelectionModel T) (it : T)
    (a : Nat) (w : World) :
    (startEditorForAction m it a w).1.result = m.result := by
  simp only [startEditorForAction]
  repeat' split
  all_goals rfl

theorem handleEditorFinished_result {T : Type} (m : SelectionModel T)
    (err : Option String) (w : World) :
    (handleEditorFinished m err w).1.result = m.result := by
  simp only [handleEditorFinished]
  repeat' split
  all_goals rfl

theorem openKeyStep_result {T : Type} (m : SelectionModel T) (w : World) :
    (openKeyStep m w).1.result = m.result := by
  simp only [openKeyStep]
  repeat' split
  all_goals rfl

theorem editKeyStep_result {T : Type} (m : SelectionModel T) (w : World) :
    (editKeyStep m w).1.result = m.result := by
  simp only [editKeyStep, editInEditor]
  repeat' split
  all_goals rfl

theorem handleQuoteKey_result {T : Type} (m : SelectionModel T) (b : Bool)
    (w : World) :
    (handleQuoteKey m b w).1.result = m.result := by
  simp only [handleQuoteKey, updateDetailViewWithHighlight]
  repeat' split
  all_goals try rfl
  all_goals rw [startEditorForAction_result]

theorem handleQuoteContextKey_result {T : Type} (m : SelectionModel T)
    (b : Bool) (w : World) :
    (handleQuoteContextKey m b w).1.result = m.result := by
  simp only [handleQuoteContextKey, updateDetailViewWithHighlight]
  repeat' split
  all_goals try rfl
  all_goals rw [startEditorForAction_result]

theorem handleAgentKey_result {T : Type} (m : SelectionModel T) (b : Bool)
    (w : World) :
    (handleAgentKey m b w).1.result = m.result := by
  simp only [handleAgentKey, updateDetailViewWithHighlight]
  repeat' split
  all_goals rfl

theorem handleReactionKey_result {T : Type} (m : SelectionModel T) (b : Bool)
    (w : World) :
    (handleReactionKey m b w).1.result = m.result := by
  simp only [handleReactionKey, updateDetailViewWithHighlight]
  repeat' split
  all_goals rfl

theorem executeCommentAction_result {T : Type} (m : SelectionModel T)
    (w : World) :
    (executeCommentAction m w).1.result = m.result := by
  simp only [executeCommentAction]
  repeat' split
  all_goals try rfl
  all_goals rw [startEditorForAction_result]
  all_goals rfl

theorem detailKey_result {T : Type} (m : SelectionModel T) (k : String)
    (w : World) :
    (detailKey m k w).1.result = m.result := by
  simp only [detailKey]
  repeat' split
  all_goals try rfl
  all_goals
    (first
      | rw [startEditorForAction_result]
      | rw [handleQuoteKey_result]
      | rw [handleQuoteContextKey_result]
      | rw [handleAgentKey_result]
      | rw [editKeyStep_result]
      | rw [handleReactionKey_result]
      | rw [openKeyStep_result])

theorem reactionModeKey_result {T : Type} (m : SelectionModel T) (k : String)
    (w : World) :
    (reactionModeKey m k w).1.result = m.result := by
  simp only [reactionModeKey]
  repeat' split
  all_goals rfl

theorem listKey_result {T : Type} (m : SelectionModel T) (k : String)
    (w : World) :
    (listKey m k w).1.result = m.result ∨ (listKey m k w).1.result = none := by
  simp only [listKey]
  repeat' split
  all_goals try exact Or.inr rfl
  all_goals try exact Or.inl rfl
  all_goals
    (first
      | exact Or.inl (openKeyStep_result m w)
      | exact Or.inl (startEditorForAction_result _ _ _ _)
      | exact Or.inl (handleQuoteKey_result m false w)
      | exact Or.inl (handleQuoteContextKey_result m false w)
      | exact Or.inl (handleAgentKey_result m false w)
      | exact Or.inl (editKeyStep_result m w)
      | exact Or.inl (handleReactionKey_result m false w))

theorem dispatchKey_result {T : Type} (m : SelectionModel T) (k : String)
    (w : World) :
    (dispatchKey m k w).1.result = m.result ∨
      (dispatchKey m k w).1.result = none := by
  simp only [dispatchKey]
  split
  · exact Or.inl rfl
  · split
    · exact Or.inl (detailKey_result m k w)
    · exact listKey_result m k w

theorem commentSelectKey_result {T : Type} (m : SelectionModel T) (k : String)
    (w : World) :
    (commentSelectKey m k w).1.result = m.result ∨
      (commentSelectKey m k w).1.result = none := by
  simp only [commentSelectKey]
  split
  · exact Or.inl (executeCommentAction_result m w)
  · split
    · exact Or.inl rfl
    · split
      · split
        · exact Or.inl rfl
        · exact Or.inl rfl
      · exact dispatchKey_result (exitCommentSelectMode m) k w

theorem keyMsgStep_result {T : Type} (m : SelectionModel T) (k : String)
    (w : World) :
    (keyMsgStep m k w).1.result = m.result ∨
      (keyMsgStep m k w).1.result = none := by
  simp only [keyMsgStep]
  split
  · exact Or.inl rfl
  · split
    · exact Or.inl rfl
    · split
      · exact Or.inl (reactionModeKey_result m k w)
      · split
        · exact commentSelectKey_result m k w
        · exact dispatchKey_result m k w

theorem Update_result {T : Type} (m : SelectionModel T) (msg : Msg T)
    (w : World) :
    (Update m msg w).1.result = m.result ∨ (Update m msg w).1.result = none := by
  cases msg with
  | windowSize wd ht => exact Or.inl rfl
  | loadDetail => exact Or.inl rfl
  | refreshFinished items err =>
    simp only [Update]
    repeat' split
    all_goals exact Or.inl rfl
  | editorFinished err => exact Or.inl (handleEditorFinished_result m err w)
  | agentFinished err =>
    simp only [Update]
    split
    · exact Or.inl rfl
    · exact Or.inl rfl
  | key k => exact keyMsgStep_result m k w
  | other => exact Or.inl rfl

theorem processEvents_result_none {T : Type} (msgs : List (Msg T)) :
    ∀ (m : SelectionModel T) (w : World), m.result = none →
      (processEvents m w msgs).result = none := by
  induction msgs with
  | nil => intro m w h; exact h
  | cons msg rest ih =>
    intro m w h
    have hstep : (Update m msg w).1.result = none := by
      rcases Update_result m msg w with h1 | h1
      · rw [h1, h]
      · exact h1
    simp only [processEvents]
    split
    · exact hstep
    · exact ih _ _ hstep

theorem startEditorForAction_commentSelectMode {T : Type}
    (m : SelectionModel T) (it : T) (a : Nat) (w : World) :
    (startEditorForAction m it a w).1.commentSelectMode = m.commentSelectMode := by
  simp only [startEditorForAction]
  repeat' split
  all_goals rfl

theorem handleQuoteKey_small {T : Type} (m : SelectionModel T) (b : Bool)
    (w : World) (it : T) (hSel : m.selectedItem = some it)
    (hc : ¬ m.opts.Renderer.ThreadCommentCount it > 1) :
    (handleQuoteKey m b w).1.commentSelectMode = m.commentSelectMode := by
  cases hQP : m.opts.QuotePrepare with
  | none => simp [handleQuoteKey, hQP]
  | some prep =>
    simp only [handleQuoteKey, hQP, hSel, hc, if_false]
    rw [startEditorForAction_commentSelectMode]
    cases b <;> rfl

theorem handleQuoteContextKey_small {T : Type} (m : SelectionModel T)
    (b : Bool) (w : World) (it : T) (hSel : m.selectedItem = some it)
    (hc : ¬ m.opts.Renderer.ThreadCommentCount it > 1) :
    (handleQuoteContextKey m b w).1.commentSelectMode = m.commentSelectMode := by
  cases hQP : m.opts.QuoteContextPrepare with
  | none => simp [handleQuoteContextKey, hQP]
  | some prep =>
    simp only [handleQuoteContextKey, hQP, hSel, hc, if_false]
    rw [startEditorForAction_commentSelectMode]
    cases b <;> rfl

theorem handleAgentKey_small {T : Type} (m : SelectionModel T) (b : Bool)
    (w : World) (it : T) (hSel : m.selectedItem = some it)
    (hc : ¬ m.opts.Renderer.ThreadCommentCount it > 1) :
    (handleAgentKey m b w).1.commentSelectMode = m.commentSelectMode := by
  cases hAA : m.opts.AgentAction with
  | none => simp [handleAgentKey, hAA]
  | some act =>
    simp only [handleAgentKey, hAA, hSel, hc, if_false]
    repeat' split
    all_goals rfl

theorem handleReactionKey_small {T : Type} (m : SelectionModel T) (b : Bool)
    (w : World) (it : T) (hSel : m.selectedItem = some it)
    (hc : ¬ m.opts.Renderer.ThreadCommentCount it > 1) :
    (handleReactionKey m b w).1.commentSelectMode = m.commentSelectMode := by
  have hcb : decide (m.opts.Renderer.ThreadCommentCount it > 1) = false :=
    decide_eq_false hc
  cases hRA : m.opts.ReactionAction with
  | none => simp [handleReactionKey, hRA]
  | some act =>
    simp only [handleReactionKey, hRA, hSel, hcb, Bool.false_and, Bool.false_eq_true,
      if_false]
    repeat' split
    all_goals rfl

theorem startEditorForAction_quote_success {T : Type} (m : SelectionModel T)
    (it : T) (prep : EditorPreparer T) (content : String) (w : World)
    (hQP : m.opts.QuotePrepare = some prep) (hprep : prep it = (content, none))
    (hcr : w.createErr = none) (hwr : w.writeErr = none) :
    startEditorForAction m it 3 w =
      ({ m with pendingEditorItem := it,
                pendingEditorTmpFile := tmpName w.nextTmp,
                pendingEditorAction := 3 },
       Cmd.execEditor (editorName w.editorEnv) [tmpName w.nextTmp],
       { w with files := fsWrite (fsWrite w.files (tmpName w.nextTmp) "")
                  (tmpName w.nextTmp) content,
                nextTmp := w.nextTmp + 1 }) := by
  simp [startEditorForAction, hQP, hprep, hcr, hwr]

/-! ## Claim theorems -/

/-- C1: every completed run of `Select`, whatever the options, world and
input event trace, ends with the explicit no-selection signal — no branch of
`Update` ever stores a chosen item in `result`, so the selected-item return
of `Select` (`final.result[0]`) is unreachable and no event sequence can
terminate with a chosen item as the claim requires. -/
theorem select_never_returns_selection {T : Type} [Inhabited T]
    (opts : SelectorOptions T) (w : World) (msgs : List (Msg T)) :
    SelectRun opts w msgs = SelectResult.errNoSelection := by
  have h : (processEvents (initialModel opts) w msgs).result = none :=
    processEvents_result_none msgs (initialModel opts) w rfl
  simp [SelectRun, h]

/-- C6 counterexample: sanitization does NOT strip every line beginning with
`#` — on `"# Heading\nContent"` the repository's pinned behaviour keeps the
leading markdown heading, while the claimed strip-every-comment-line rule
would delete it. -/
theorem sanitize_not_strip_all_counterexample :
    SanitizeEditorContent "# Heading\nContent" = "# Heading\nContent" ∧
    sanitizeSpecStripAll "# Heading\nContent" = "Content" ∧
    SanitizeEditorContent "# Heading\nContent" ≠
      sanitizeSpecStripAll "# Heading\nContent" := by decide

/-- C6 (amended): sanitization strips only the TRAILING run of blank or
`#`-comment lines and trims surrounding whitespace; in particular
`"body\n# instructions\n"` sanitizes to exactly `"body"`.  The remaining
conjuncts are the full vector set of the repository's
`TestSanitizeEditorContent`, which pins this behaviour (comment lines are
preserved at the start or in the middle of the content). -/
theorem sanitize_trailing_comment_block :
    SanitizeEditorContent "body\n# instructions\n" = "body" ∧
    SanitizeEditorContent "" = "" ∧
    SanitizeEditorContent "Line 1\nLine 2\nLine 3" = "Line 1\nLine 2\nLine 3" ∧
    SanitizeEditorContent "# Comment 1\n# Comment 2" = "" ∧
    SanitizeEditorContent "User content\n# This is a comment\nMore content" =
      "User content\n# This is a comment\nMore content" ∧
    SanitizeEditorContent "# Header comment\nActual content" =
      "# Header comment\nActual content" ∧
    SanitizeEditorContent "Content here\n# Footer comment" = "Content here" ∧
    SanitizeEditorContent "  \n\nContent\n\n  " = "Content" ∧
    SanitizeEditorContent "Line 1\n\nLine 2" = "Line 1\n\nLine 2" ∧
    SanitizeEditorContent
        "> @author wrote:\n>\n> Original comment\n\nMy reply here\n# Write your comment above. Lines starting with # are ignored.\n" =
      "> @author wrote:\n>\n> Original comment\n\nMy reply here" ∧
    SanitizeEditorContent "Code with # comment" = "Code with # comment" ∧
    SanitizeEditorContent "# Heading\nContent" = "# Heading\nContent" ∧
    SanitizeEditorContent "# Heading\nContent\n# Template comment" =
      "# Heading\nContent" := by decide

/-- C9: on an item with `ThreadCommentCount == 3`, one press of the quote
key enters ThreadPick showing `[1/3]`; two more presses cycle the display to
`[3/3]`; a further press wraps back to `[1/3]`; Enter then opens an editor
session (action 3) on the item stamped with thread index 0 — the sub-index
active at Enter time — whose prepared content `quote:0` is written to the
temp file handed to the editor. -/
theorem quote_threadpick_scenario :
    (c9s1.1.commentSelectMode = true ∧ modeOf c9s1.1 = Mode.ThreadPick ∧
      c9s1.1.commentSelectStatus = "[1/3] c0 (Q=next, Enter=select, Esc=cancel)") ∧
    c9s2.1.commentSelectStatus = "[2/3] c1 (Q=next, Enter=select, Esc=cancel)" ∧
    c9s3.1.commentSelectStatus = "[3/3] c2 (Q=next, Enter=select, Esc=cancel)" ∧
    (c9s4.1.commentSelectStatus = "[1/3] c0 (Q=next, Enter=select, Esc=cancel)" ∧
      c9s4.1.commentSelectIdx = 0) ∧
    (c9s5.1.pendingEditorAction = 3 ∧
      c9s5.1.pendingEditorItem = ⟨1, 0⟩ ∧
      c9s5.1.commentSelectMode = false ∧
      c9s5.2.1 = Cmd.execEditor "vim" [tmpName 0] ∧
      fsRead c9s5.2.2.files (tmpName 0) = some "quote:0") := by decide

/-- C3: evaluation at the failing input — after `Q` starts an editor session
(temp file `gh-prreview-0.md` created and filled), an `editorFinishedMsg`
carrying an error (`exit status 1`) returns the red status immediately:
the temp file is still present in the world and the pending session is not
cleared, whereas a successful exit does remove the file.  This contradicts
the claimed unconditional deletion. -/
theorem editor_error_leaves_temp_file :
    c3s1.1.pendingEditorTmpFile = tmpName 0 ∧
    fsRead c3s1.2.2.files (tmpName 0) = some "hello" ∧
    (Update c3s1.1 (Msg.editorFinished (some "exit status 1")) c3s1.2.2).2.2.files
      = c3s1.2.2.files ∧
    (Update c3s1.1 (Msg.editorFinished (some "exit status 1"))
        c3s1.2.2).1.pendingEditorTmpFile = tmpName 0 ∧
    (Update c3s1.1 (Msg.editorFinished (some "exit status 1")) c3s1.2.2).2.1
      = Cmd.statusMsg (Colorize ColorRed "Editor error: exit status 1") ∧
    (Update c3s1.1 (Msg.editorFinished none) c3s1.2.2).2.2.files = [] ∧
    (Update c3s1.1 (Msg.editorFinished none) c3s1.2.2).1.pendingEditorTmpFile
      = "" := by decide

/-- C4 counterexample: with a `Q` thread-pick active over a 3-comment thread
and an agent action configured, pressing `a` does NOT merely cancel the
pick — in the same event-loop turn the key is re-dispatched and the agent
action's thread-pick becomes active (status `[1/3] ... (a=next, ...)`),
so no second press is required, contrary to the claim. -/
theorem threadpick_other_key_counterexample :
    c4m0.commentSelectMode = true ∧ c4m0.commentSelectAction = "Q" ∧
    (Update c4m0 (Msg.key "a") ({} : World)).1.commentSelectMode = true ∧
    (Update c4m0 (Msg.key "a") ({} : World)).1.commentSelectAction = "a" ∧
    (Update c4m0 (Msg.key "a") ({} : World)).2.1 =
      Cmd.statusMsg "[1/3] c0 (a=next, Enter=select, Esc=cancel)" := by decide

/-- C4 (amended): when ThreadPick is active and a key other than Enter, Esc
or the originating action key is pressed, the pick is cancelled and the key
IS re-dispatched to the normal key handlers in the same event-loop turn —
the whole step equals cancelling the pick and dispatching the key
normally (the Go `case` bodies fall past the `switch` without `return`). -/
theorem threadpick_cancel_then_redispatch {T : Type} (m : SelectionModel T)
    (k : String) (w : World)
    (hHelp : m.showHelp = false) (hConf : m.confirmationMessage = "")
    (hReact : m.reactionMode = false) (hCS : m.commentSelectMode = true)
    (h1 : k ≠ "enter") (h2 : k ≠ "esc") (h3 : k ≠ m.commentSelectAction) :
    Update m (Msg.key k) w = dispatchKey (exitCommentSelectMode m) k w := by
  simp [Update, keyMsgStep, commentSelectKey, hHelp, hConf, hReact, hCS,
    h1, h2, h3]

/-- C4 witness: the amended behaviour at the concrete `Q`-pick state and the
key `a`. -/
theorem threadpick_cancel_then_redispatch_witness :
    Update c4m0 (Msg.key "a") ({} : World) =
      dispatchKey (exitCommentSelectMode c4m0) "a" ({} : World) :=
  threadpick_cancel_then_redispatch c4m0 "a" {} (by decide) (by decide)
    (by decide) (by decide) (by decide) (by decide) (by decide)

/-- C8: the reaction catalog has exactly the eight entries
`+1, -1, laugh, confused, heart, hooray, rocket, eyes` in this order, and in
reaction-pick mode every press of the react key `x` advances the selection
from index `i` to `(i + 1) % 8`, staying in reaction mode and showing the
new entry's status line. -/
theorem reaction_cycle_wraps_mod8 {T : Type} (m : SelectionModel T) (w : World)
    (hHelp : m.showHelp = false) (hConf : m.confirmationMessage = "")
    (hReact : m.reactionMode = true) :
    reactionEmojis.map ReactionEmoji.name =
      ["+1", "-1", "laugh", "confused", "heart", "hooray", "rocket", "eyes"] ∧
    reactionEmojis.length = 8 ∧
    (Update m (Msg.key "x") w).1.reactionIdx = (m.reactionIdx + 1) % 8 ∧
    (Update m (Msg.key "x") w).1.reactionMode = true ∧
    (Update m (Msg.key "x") w).2.1 =
      Cmd.statusMsg (reactionStatusLine ((m.reactionIdx + 1) % 8)) := by
  refine ⟨by decide, by decide, ?_, ?_, ?_⟩ <;>
    simp [Update, keyMsgStep, reactionModeKey, showReactionStatus,
      reactionEmojis, hHelp, hConf, hReact]

/-- C5: on an item whose `ThreadCommentCount` is 0 or 1, none of the action
keys quote (`Q`), quote-with-context (`C`), agent (`a`) or react (`x`) ever
enters ThreadPick (comment-selection) mode, in either the list or the detail
view; instead the action proceeds directly on the item — the quote keys
start the editor session (pending action 3 with the editor command), the
agent key launches the agent for a `LAUNCH_AGENT:` result, and the react key
enters ReactionPick for the returned comment id. -/
theorem small_thread_never_enters_threadpick {T : Type}
    (m : SelectionModel T) (w : World) (it : T)
    (hHelp : m.showHelp = false) (hConf : m.confirmationMessage = "")
    (hReact : m.reactionMode = false) (hCS : m.commentSelectMode = false)
    (hSF : m.settingFilter = false) (hSel : m.selectedItem = some it)
    (hCount : m.opts.Renderer.ThreadCommentCount it ≤ 1) :
    ((Update m (Msg.key "Q") w).1.commentSelectMode = false) ∧
    ((Update m (Msg.key "C") w).1.commentSelectMode = false) ∧
    ((Update m (Msg.key "a") w).1.commentSelectMode = false) ∧
    ((Update m (Msg.key "x") w).1.commentSelectMode = false) ∧
    (∀ prep c, m.opts.QuotePrepare = some prep → prep it = (c, none) →
      w.createErr = none → w.writeErr = none →
      (Update m (Msg.key "Q") w).1.pendingEditorAction = 3 ∧
      (Update m (Msg.key "Q") w).2.1 =
        Cmd.execEditor (editorName w.editorEnv) [tmpName w.nextTmp]) ∧
    (∀ act r, m.opts.AgentAction = some act → act it = (r, none) →
      startsWithGo r "LAUNCH_AGENT:" = true →
      (Update m (Msg.key "a") w).2.1 =
        launchAgent T (trimPrefixGo r "LAUNCH_AGENT:") w) ∧
    (∀ act cid, m.opts.ReactionAction = some act → act it = (cid, none) →
      (Update m (Msg.key "x") w).1.reactionMode = true ∧
      (Update m (Msg.key "x") w).1.reactionCommentID = cid) := by
  have hc : ¬ m.opts.Renderer.ThreadCommentCount it > 1 := by omega
  have hcb : decide (m.opts.Renderer.ThreadCommentCount it > 1) = false :=
    decide_eq_false hc
  refine ⟨?_, ?_, ?_, ?_, ?_, ?_, ?_⟩
  · by_cases hd : m.showDetail <;>
      simp only [Update, keyMsgStep, dispatchKey, detailKey, listKey,
        hHelp, hConf, hReact, hCS, hSF, hd, Bool.false_eq_true, if_false,
        ne_eq, not_true_eq_false, not_false_eq_true, if_true, ite_false,
        ite_true] <;>
      rw [handleQuoteKey_small m _ w it hSel hc] <;> exact hCS
  · by_cases hd : m.showDetail <;>
      simp only [Update, keyMsgStep, dispatchKey, detailKey, listKey,
        hHelp, hConf, hReact, hCS, hSF, hd, Bool.false_eq_true, if_false,
        ne_eq, not_true_eq_false, not_false_eq_true, if_true, ite_false,
        ite_true] <;>
      rw [handleQuoteContextKey_small m _ w it hSel hc] <;> exact hCS
  · by_cases hd : m.showDetail <;>
      simp only [Update, keyMsgStep, dispatchKey, detailKey, listKey,
        hHelp, hConf, hReact, hCS, hSF, hd, Bool.false_eq_true, if_false,
        ne_eq, not_true_eq_false, not_false_eq_true, if_true, ite_false,
        ite_true] <;>
      rw [handleAgentKey_small m _ w it hSel hc] <;> exact hCS
  · by_cases hd : m.showDetail <;>
      simp only [Update, keyMsgStep, dispatchKey, detailKey, listKey,
        hHelp, hConf, hReact, hCS, hSF, hd, Bool.false_eq_true, if_false,
        ne_eq, not_true_eq_false, not_false_eq_true, if_true, ite_false,
        ite_true] <;>
      rw [handleReactionKey_small m _ w it hSel hc] <;> exact hCS
  · intro prep c hQP hprep hcr hwr
    by_cases hd : m.showDetail
    · have hred : Update m (Msg.key "Q") w =
          startEditorForAction { m with showDetail := false } it 3 w := by
        simp [Update, keyMsgStep, dispatchKey, detailKey, handleQuoteKey,
          hHelp, hConf, hReact, hCS, hSF, hd, hSel, hQP, hc]
      rw [hred,
        startEditorForAction_quote_success { m with showDetail := false }
          it prep c w hQP hprep hcr hwr]
      exact ⟨rfl, rfl⟩
    · have hred : Update m (Msg.key "Q") w =
          startEditorForAction m it 3 w := by
        simp [Update, keyMsgStep, dispatchKey, listKey, handleQuoteKey,
          hHelp, hConf, hReact, hCS, hSF, hd, hSel, hQP, hc]
      rw [hred,
        startEditorForAction_quote_success m it prep c w hQP hprep hcr hwr]
      exact ⟨rfl, rfl⟩
  · intro act r hAA hres hpre
    by_cases hd : m.showDetail <;>
      simp [Update, keyMsgStep, dispatchKey, detailKey, listKey,
        handleAgentKey, hHelp, hConf, hReact, hCS, hSF, hd, hSel, hAA, hc,
        hres, hpre]
  · intro act cid hRA hres
    by_cases hd : m.showDetail <;>
      simp [Update, keyMsgStep, dispatchKey, detailKey, listKey,
        handleReactionKey, enterReactionMode, hHelp, hConf, hReact, hCS,
        hSF, hd, hSel, hRA, hcb, hres]

/-- C5 witness: on the 0-comment item of `c3opts`, pressing `Q` does not
enter ThreadPick and directly opens the quote editor session. -/
theorem small_thread_never_enters_threadpick_witness :
    (Update (initialModel c3opts) (Msg.key "Q") ({} : World)).1.commentSelectMode
      = false ∧
    (Update (initialModel c3opts) (Msg.key "Q") ({} : World)).1.pendingEditorAction
      = 3 ∧
    (Update (initialModel c3opts) (Msg.key "Q") ({} : World)).2.1 =
      Cmd.execEditor "vim" [tmpName 0] := by
  have h := small_thread_never_enters_threadpick (initialModel c3opts)
    ({} : World) ⟨1, 0⟩ rfl rfl rfl rfl rfl rfl (by decide)
  have h5 := h.2.2.2.2.1 (fun _ => ("hello", none)) "hello" rfl rfl rfl rfl
  exact ⟨h.1, h5.1, h5.2⟩

/-- C2 counterexample: with a ResolveAction that fails, pressing `r` in the
Detail view surfaces the red status but leaves the engine in Normal, not in
Detail — the detail view is closed before the error is checked, refuting
the claim's own example. -/
theorem resolve_error_from_detail_counterexample :
    modeOf c2m0 = Mode.Detail ∧
    modeOf (Update c2m0 (Msg.key "r") ({} : World)).1 = Mode.Normal ∧
    (Update c2m0 (Msg.key "r") ({} : World)).2.1 =
      Cmd.statusMsg (Colorize ColorRed "resolve failed") := by decide

/-- C2 (amended): a callback error is surfaced only as a red transient
status line and never quits the engine; the Mode State after the event
equals the mode that was active at the moment the callback was invoked —
which preserves the pre-event mode for every callback except `ResolveAction`
invoked from Detail, where the Go code closes the detail view regardless of
the error, landing in Normal (conjunct 4); the editor preparers reached
from Detail (conjuncts 8 and 9) likewise run after the detail view has
already been closed, so their errors also leave the engine in Normal. -/
theorem callback_error_status_and_mode {T : Type} (m : SelectionModel T)
    (w : World) (it : T)
    (hHelp : m.showHelp = false) (hConf : m.confirmationMessage = "")
    (hReact : m.reactionMode = false) (hCS : m.commentSelectMode = false)
    (hSF : m.settingFilter = false) (hSel : m.selectedItem = some it) :
    (∀ act s e, m.showDetail = false → m.opts.OnSelect = some act →
      act it = (s, some e) →
      Update m (Msg.key "enter") w = (m, Cmd.statusMsg (Colorize ColorRed e), w)) ∧
    (∀ act s e, m.opts.OnOpen = some act → act it = (s, some e) →
      Update m (Msg.key "o") w = (m, Cmd.statusMsg (Colorize ColorRed e), w)) ∧
    (∀ act s e, m.showDetail = false → m.opts.ResolveAction = some act →
      act it = (s, some e) →
      Update m (Msg.key "r") w = (m, Cmd.statusMsg (Colorize ColorRed e), w)) ∧
    (∀ act s e, m.showDetail = true → m.opts.ResolveAction = some act →
      act it = (s, some e) →
      Update m (Msg.key "r") w =
        ({ m with showDetail := false }, Cmd.statusMsg (Colorize ColorRed e), w) ∧
      modeOf (Update m (Msg.key "r") w).1 = Mode.Normal) ∧
    (∀ act s e, m.opts.EditAction = some act → act it = (s, some e) →
      Update m (Msg.key "e") w = (m, Cmd.statusMsg (Colorize ColorRed e), w)) ∧
    (∀ act s e, m.opts.Renderer.ThreadCommentCount it ≤ 1 →
      m.opts.AgentAction = some act → act it = (s, some e) →
      Update m (Msg.key "a") w = (m, Cmd.statusMsg (Colorize ColorRed e), w)) ∧
    (∀ act cid e, m.opts.Renderer.ThreadCommentCount it ≤ 1 →
      m.opts.ReactionAction = some act → act it = (cid, some e) →
      Update m (Msg.key "x") w = (m, Cmd.statusMsg (Colorize ColorRed e), w)) ∧
    (∀ prep c e, m.opts.ResolveCommentPrepare = some prep →
      prep it = (c, some e) →
      Update m (Msg.key "R") w =
        ((if m.showDetail then { m with showDetail := false } else m),
         Cmd.statusMsg (Colorize ColorRed e), w)) ∧
    (∀ prep c e, m.opts.Renderer.ThreadCommentCount it ≤ 1 →
      m.opts.QuotePrepare = some prep → prep it = (c, some e) →
      Update m (Msg.key "Q") w =
        ((if m.showDetail then { m with showDetail := false } else m),
         Cmd.statusMsg (Colorize ColorRed e), w)) ∧
    (∀ f p content res e, m.pendingEditorTmpFile = p → p ≠ "" →
      fsRead w.files p = some content → SanitizeEditorContent content ≠ "" →
      m.pendingEditorAction = 3 → m.opts.QuoteComplete = some f →
      f m.pendingEditorItem (SanitizeEditorContent content) = (res, some e) →
      Update m (Msg.editorFinished none) w =
        ({ m with pendingEditorTmpFile := "" },
         Cmd.statusMsg (Colorize ColorRed e),
         { w with files := fsRemove w.files p })) := by
  refine ⟨?_, ?_, ?_, ?_, ?_, ?_, ?_, ?_, ?_, ?_⟩
  · intro act s e hd hOS hres
    simp [Update, keyMsgStep, dispatchKey, listKey, hHelp, hConf, hReact,
      hCS, hSF, hd, hSel, hOS, hres]
  · intro act s e hOO hres
    by_cases hd : m.showDetail <;>
      simp [Update, keyMsgStep, dispatchKey, detailKey, listKey, openKeyStep,
        hHelp, hConf, hReact, hCS, hSF, hd, hSel, hOO, hres]
  · intro act s e hd hRA hres
    simp [Update, keyMsgStep, dispatchKey, listKey, hHelp, hConf, hReact,
      hCS, hSF, hd, hSel, hRA, hres]
  · intro act s e hd hRA hres
    have h1 : Update m (Msg.key "r") w =
        ({ m with showDetail := false }, Cmd.statusMsg (Colorize ColorRed e), w) := by
      simp [Update, keyMsgStep, dispatchKey, detailKey, hHelp, hConf, hReact,
        hCS, hSF, hd, hSel, hRA, hres]
    refine ⟨h1, ?_⟩
    rw [h1]
    simp [modeOf, hHelp, hConf, hReact, hCS]
  · intro act s e hEA hres
    by_cases hd : m.showDetail <;>
      simp [Update, keyMsgStep, dispatchKey, detailKey, listKey, editKeyStep,
        hHelp, hConf, hReact, hCS, hSF, hd, hSel, hEA, hres]
  · intro act s e hcount hAA hres
    have hc : ¬ m.opts.Renderer.ThreadCommentCount it > 1 := by omega
    by_cases hd : m.showDetail <;>
      simp [Update, keyMsgStep, dispatchKey, detailKey, listKey,
        handleAgentKey, hHelp, hConf, hReact, hCS, hSF, hd, hSel, hAA, hc,
        hres]
  · intro act cid e hcount hRA hres
    have hcb : decide (m.opts.Renderer.ThreadCommentCount it > 1) = false :=
      decide_eq_false (by omega)
    by_cases hd : m.showDetail <;>
      simp [Update, keyMsgStep, dispatchKey, detailKey, listKey,
        handleReactionKey, hHelp, hConf, hReact, hCS, hSF, hd, hSel, hRA,
        hcb, hres]
  · intro prep c e hRCP hprep
    by_cases hd : m.showDetail <;>
      simp [Update, keyMsgStep, dispatchKey, detailKey, listKey,
        startEditorForAction, hHelp, hConf, hReact, hCS, hSF, hd, hSel,
        hRCP, hprep]
  · intro prep c e hcount hQP hprep
    have hc : ¬ m.opts.Renderer.ThreadCommentCount it > 1 := by omega
    by_cases hd : m.showDetail <;>
      simp [Update, keyMsgStep, dispatchKey, detailKey, listKey,
        handleQuoteKey, startEditorForAction, hHelp, hConf, hReact, hCS,
        hSF, hd, hSel, hQP, hc, hprep]
  · intro f p content res e hp hne hread hsan hact hcomp hres
    simp [Update, handleEditorFinished, hp, hne, hread, hsan, hact, hcomp,
      hres]

/-- C2 amended witness: the exceptional case at the concrete detail-view
state — the failing resolve leaves Normal mode with the red status. -/
theorem callback_error_status_and_mode_witness :
    Update c2m0 (Msg.key "r") ({} : World) =
      ({ c2m0 with showDetail := false },
       Cmd.statusMsg (Colorize ColorRed "resolve failed"), ({} : World)) ∧
    modeOf (Update c2m0 (Msg.key "r") ({} : World)).1 = Mode.Normal :=
  (callback_error_status_and_mode c2m0 ({} : World) ⟨1, 0⟩ rfl rfl rfl rfl rfl
    rfl).2.2.2.1 (fun _ => ("", some "resolve failed")) "" "resolve failed"
    rfl rfl rfl

theorem fsRead_fsRemove (fs : List (String × String)) (p : String) :
    fsRead (fsRemove fs p) p = none := by
  induction fs with
  | nil => rfl
  | cons hd tl ih =>
    obtain ⟨q, d⟩ := hd
    by_cases h : q = p
    · simp [fsRemove, h, ih]
    · simp [fsRemove, fsRead, h, ih]

/-- C7: when the editor exits successfully and the temp file's content is
empty after sanitization, the step is fully determined independently of any
configured Completer (so no Completer is invoked): the pending-file field is
cleared, a `Cancelled (empty content)` status is shown, and the temp file is
removed from the file system. -/
theorem empty_sanitized_cancels_session {T : Type} (m : SelectionModel T)
    (w : World) (p content : String)
    (hp : m.pendingEditorTmpFile = p) (hne : p ≠ "")
    (hread : fsRead w.files p = some content)
    (hsan : SanitizeEditorContent content = "") :
    Update m (Msg.editorFinished none) w =
      ({ m with pendingEditorTmpFile := "" },
       Cmd.statusMsg "Cancelled (empty content)",
       { w with files := fsRemove w.files p }) ∧
    fsRead (fsRemove w.files p) p = none := by
  constructor
  · simp [Update, handleEditorFinished, hp, hne, hread, hsan]
  · exact fsRead_fsRemove w.files p

/-- C7 witness: the cancellation behaviour at the concrete pending session
whose temp file holds only comment lines. -/
theorem empty_sanitized_cancels_session_witness :
    Update c7m0 (Msg.editorFinished none) c7w0 =
      ({ c7m0 with pendingEditorTmpFile := "" },
       Cmd.statusMsg "Cancelled (empty content)",
       { c7w0 with files := fsRemove c7w0.files "/tmp/pending.md" }) ∧
    fsRead (fsRemove c7w0.files "/tmp/pending.md") "/tmp/pending.md" = none :=
  empty_sanitized_cancels_session c7m0 c7w0 "/tmp/pending.md" "# a\n# b\n"
    rfl (by decide) rfl (by decide)

theorem append_press_any_key_ne_empty (s : String) :
    s ++ "\n\nPress any key to continue..." ≠ "" := by
  intro h
  have h2 : (s ++ "\n\nPress any key to continue...").data = ("" : String).data :=
    congrArg String.data h
  rw [String.data_append] at h2
  rcases List.append_eq_nil.mp h2 with ⟨-, h3⟩
  exact absurd h3 (by decide)

/-- C10: after a successful editor completion with non-empty sanitized
content whose quote Completer succeeds, the engine enters Confirmation mode
if and only if the Completer's returned status string contains `https://`;
when it does not, the confirmation message stays empty and the result is
shown only as a transient status line when non-empty, and nothing at all
when empty. -/
theorem completer_url_confirmation_iff {T : Type} (m : SelectionModel T)
    (w : World) (p content result : String) (f : EditorCompleter T)
    (hHelp : m.showHelp = false) (hConf : m.confirmationMessage = "")
    (hp : m.pendingEditorTmpFile = p) (hne : p ≠ "")
    (hread : fsRead w.files p = some content)
    (hsan : SanitizeEditorContent content ≠ "")
    (hact : m.pendingEditorAction = 3)
    (hcomp : m.opts.QuoteComplete = some f)
    (hres : f m.pendingEditorItem (SanitizeEditorContent content) =
      (result, none)) :
    ((modeOf (Update m (Msg.editorFinished none) w).1 = Mode.Confirmation) ↔
      strContains result "https://" = true) ∧
    (strContains result "https://" = false →
      (Update m (Msg.editorFinished none) w).1.confirmationMessage = "" ∧
      (Update m (Msg.editorFinished none) w).2.1 =
        (if result = "" then Cmd.none else Cmd.statusMsg result)) := by
  by_cases hurl : strContains result "https://" = true
  · have h1 : Update m (Msg.editorFinished none) w =
        ({ m with pendingEditorTmpFile := "",
                  confirmationMessage :=
                    result ++ "\n\nPress any key to continue..." },
         Cmd.none, { w with files := fsRemove w.files p }) := by
      simp [Update, handleEditorFinished, hp, hne, hread, hsan, hact, hcomp,
        hres, hurl]
    rw [h1]
    constructor
    · simp [modeOf, hHelp, append_press_any_key_ne_empty result, hurl]
    · intro hc
      rw [hurl] at hc
      exact absurd hc (by decide)
  · have hurl' : strContains result "https://" = false := by
      cases hx : strContains result "https://"
      · rfl
      · exact absurd hx hurl
    have h1 : Update m (Msg.editorFinished none) w =
        ({ m with pendingEditorTmpFile := "" },
         (if result = "" then Cmd.none else Cmd.statusMsg result),
         { w with files := fsRemove w.files p }) := by
      by_cases hr : result = ""
      · have hu2 : strContains "" "https://" = false := hr ▸ hurl'
        simp [Update, handleEditorFinished, hp, hne, hread, hsan, hact,
          hcomp, hres, hu2, hr]
      · simp [Update, handleEditorFinished, hp, hne, hread, hsan, hact,
          hcomp, hres, hurl', hr]
    rw [h1]
    constructor
    · rw [hurl']
      constructor
      · intro hmode
        exfalso
        simp [modeOf, hHelp, hConf] at hmode
        cases hrm : m.reactionMode <;> cases hcm : m.commentSelectMode <;>
          cases hsd : m.showDetail <;> simp [hrm, hcm, hsd] at hmode
      · intro hfalse
        exact absurd hfalse (by decide)
    · intro _
      exact ⟨hConf, rfl⟩

/-- C10 witness: the non-URL case at the concrete pending quote session —
no confirmation, the result is shown as a plain status line. -/
theorem completer_url_confirmation_iff_witness :
    ((modeOf (Update c10m0 (Msg.editorFinished none) c10w0).1 =
        Mode.Confirmation) ↔ strContains "done hi" "https://" = true) ∧
    (strContains "done hi" "https://" = false →
      (Update c10m0 (Msg.editorFinished none) c10w0).1.confirmationMessage = "" ∧
      (Update c10m0 (Msg.editorFinished none) c10w0).2.1 =
        (if "done hi" = "" then Cmd.none else Cmd.statusMsg "done hi")) :=
  completer_url_confirmation_iff c10m0 c10w0 "/tmp/pending.md" "hi\n"
    "done hi" (fun _ s => ("done " ++ s, none)) rfl rfl rfl (by decide) rfl
    (by decide) rfl rfl (by decide)

/-- C8 witness: cycling from the last catalog entry wraps to the first. -/
theorem reaction_cycle_wraps_mod8_witness :
    reactionEmojis.map ReactionEmoji.name =
      ["+1", "-1", "laugh", "confused", "heart", "hooray", "rocket", "eyes"] ∧
    reactionEmojis.length = 8 ∧
    (Update c8m0 (Msg.key "x") ({} : World)).1.reactionIdx = (7 + 1) % 8 ∧
    (Update c8m0 (Msg.key "x") ({} : World)).1.reactionMode = true ∧
    (Update c8m0 (Msg.key "x") ({} : World)).2.1 =
      Cmd.statusMsg (reactionStatusLine ((7 + 1) % 8)) :=
  reaction_cycle_wraps_mod8 c8m0 ({} : World) (by decide) (by decide) (by decide)

end Gh
